import Mathlib

/-!
Verification of the `lazy` package (`lazy.go`): a generic, context-aware
lazy-initialization primitive.  `Func[T]` wraps a producer
`f : context.Context → (T, error)` into an accessor that executes `f` at
most once successfully, caches the result, retries after errors, and
honours context cancellation while waiting for the capacity-one semaphore.

The Go code is embedded shallowly: the per-instance struct `d` becomes
`GateState`, one accessor call becomes the function `callI` which also
records the atomic actions it performs as a list of `Event`s.  The single
real interleaving point of the code — between the fast-path
`d.done.Load()` and the resolution of the `select` — is made explicit by
giving `callI` two state arguments: `s0`, the state observed at the
fast-path load, and `s1`, the state when the `select` resolves.  Once the
semaphore is held every other writer is excluded (all writes to `d.value`,
`d.done`, `d.f` happen while holding `d.sem`), so the body after
acquisition is one atomic step.  The sequential specialization `call`
takes `s0 = s1`.
-/

namespace Lazy

/-- The two errors a Go `context.Context` reports from `ctx.Err()`:
`context.Canceled` or `context.DeadlineExceeded`. -/
inductive CtxErr : Type where
  | canceled
  | deadlineExceeded
deriving DecidableEq, Repr

/-- A Go error value as the accessor returns it: either one of the two
context errors, or an arbitrary producer-supplied error carrying `e : E`. -/
inductive GoError (E : Type) : Type where
  | canceled
  | deadlineExceeded
  | prod (e : E)
deriving DecidableEq, Repr

/-- The context error, viewed as the Go error the accessor returns on the
cancellation path (`ctx.Err()` propagated unmodified). -/
def CtxErr.toGoError {E : Type} : CtxErr → GoError E
  | .canceled => .canceled
  | .deadlineExceeded => .deadlineExceeded

/-- Embedding of `context.Context` as the call sees it: `err` is what
`ctx.Err()` reports (`none` while the context is not done, `some` the
reported cancellation cause once it is), and `val` models a
context-embedded value retrievable via `ctx.Value`. -/
structure Ctx (V : Type) : Type where
  err : Option CtxErr
  val : V
deriving DecidableEq, Repr

/-- The state of one Gate Instance: the struct `d` allocated by `Func`.
`f` is the stored producer (`none` once `d.f = nil` has run), `done` the
atomic flag, `sem` whether the capacity-one channel `d.sem` currently
holds a token (gate held), `value` the cache cell.  `ncalls` is ghost
instrumentation: it counts producer invocations and is fed to the
producer, so that producers that are Go closures over a mutable attempt
counter are expressible; the gate logic itself never branches on it. -/
structure GateState (V T E : Type) : Type where
  f : Option (Nat → Ctx V → T × Option (GoError E))
  done : Bool
  sem : Bool
  value : T
  ncalls : Nat

/-- The state `Func` builds before returning the accessor: producer
stored, `done` false, semaphore empty, `value` the zero value of `T`. -/
def initState {V T E : Type} (f0 : Nat → Ctx V → T × Option (GoError E))
    (zero : T) : GateState V T E :=
  ⟨some f0, false, false, zero, 0⟩

/-- The observable atomic actions of one accessor call, in program order:
`acquire`/`release` of the semaphore `d.sem`, `invoke ctx` the producer
call `d.f(ctx)`, `writeValue v` the assignment `d.value = value`,
`setDone` the `d.done.Store(true)`, and `clearF` the `d.f = nil`. -/
inductive Event (V T : Type) : Type where
  | acquire
  | release
  | invoke (ctx : Ctx V)
  | writeValue (v : T)
  | setDone
  | clearF
deriving DecidableEq, Repr

/-- How one accessor call ends: `ret v e` models `return v, e`; `blocked`
a `select` that never resolves (semaphore held forever and context never
done); `nilPanic` an invocation of a nil `d.f` (a Go panic). -/
inductive CallResult (T E : Type) : Type where
  | ret (v : T) (e : Option (GoError E))
  | blocked
  | nilPanic
deriving DecidableEq, Repr

/-- Result of one accessor call: the returned pair, the gate state after
the call, and the trace of atomic actions the call performed. -/
structure Outcome (V T E : Type) : Type where
  res : CallResult T E
  state : GateState V T E
  events : List (Event V T)

/-- Whether the `select` resolves to its `<-ctx.Done()` branch: the
context must be done, and either the semaphore is full (so only the
cancellation branch is ready) or the oracle `pickCancel` records that
Go's uniformly random choice picked it while both branches were ready. -/
def selectCancel {V : Type} (ctx : Ctx V) (semHeld pickCancel : Bool) :
    Bool :=
  ctx.err.isSome && (semHeld || pickCancel)

/-- The body of the accessor after `d.sem <- struct{}{}` succeeded: the
deferred release, the second `d.done.Load()` check, the producer
invocation, and on success the publish sequence
`d.value = value; d.done.Store(true); d.f = nil`.  `s` is the gate state
at acquisition; the gate excludes every other writer, so this block is a
single atomic step.  The deferred `<-d.sem` runs on every exit, the nil
panic included. -/
def acquireAndRun {V T E : Type} (zero : T) (s : GateState V T E)
    (ctx : Ctx V) : Outcome V T E :=
  let s1 : GateState V T E := { s with sem := true }
  if s1.done then
    ⟨.ret s1.value none, { s1 with sem := false },
      [.acquire, .release]⟩
  else
    match s1.f with
    | none =>
        ⟨.nilPanic, { s1 with sem := false }, [.acquire, .release]⟩
    | some g =>
        let r := g s1.ncalls ctx
        let s2 : GateState V T E := { s1 with ncalls := s1.ncalls + 1 }
        match r.2 with
        | some e =>
            ⟨.ret zero (some e), { s2 with sem := false },
              [.acquire, .invoke ctx, .release]⟩
        | none =>
            let s3 : GateState V T E :=
              { s2 with value := r.1, done := true, f := none }
            ⟨.ret s3.value none, { s3 with sem := false },
              [.acquire, .invoke ctx, .writeValue r.1, .setDone, .clearF,
               .release]⟩

/-- One call of the accessor returned by `Func`.  `s0` is the gate state
observed by the fast-path `d.done.Load()`; `s1` the state when the
`select` resolves (other callers may have run in between); `pickCancel`
resolves Go's random choice when both `select` branches are ready.
`zero` is the zero value of `T` (`var zero T`). -/
def callI {V T E : Type} (zero : T) (s0 s1 : GateState V T E)
    (ctx : Ctx V) (pickCancel : Bool) : Outcome V T E :=
  if s0.done then
    ⟨.ret s0.value none, s1, []⟩
  else if selectCancel ctx s1.sem pickCancel then
    ⟨.ret zero (Option.map CtxErr.toGoError ctx.err), s1, []⟩
  else if s1.sem then
    ⟨.blocked, s1, []⟩
  else
    acquireAndRun zero s1 ctx

/-- One accessor call with no interference between the fast-path check
and the select resolution: the sequential case. -/
def call {V T E : Type} (zero : T) (s : GateState V T E) (ctx : Ctx V)
    (pickCancel : Bool) : Outcome V T E :=
  callI zero s s ctx pickCancel

/-- A sequence of accessor calls run back to back, returning the final
gate state and the list of per-call results. -/
def runCalls {V T E : Type} (zero : T) (s : GateState V T E) :
    List (Ctx V × Bool) → GateState V T E × List (CallResult T E)
  | [] => (s, [])
  | c :: rest =>
      let o := call zero s c.1 c.2
      let t := runCalls zero o.state rest
      (t.1, o.res :: t.2)

/-- The state invariant every sequentially reachable gate state enjoys:
the semaphore is free between calls, and while `done` is still false the
producer reference has not been nilled (it is nilled only in the same
critical section that sets `done`). -/
def Inv {V T E : Type} (s : GateState V T E) : Prop :=
  s.sem = false ∧ (s.done = false → s.f.isSome = true)

/-- The producer of the spec's retry scenario: a Go closure over an
attempt counter that fails with error `e` (returning the junk value `w`
beside it) on its first `k` invocations — its 1st through k-th — and
returns `v` with no error from invocation `k+1` on. -/
def retryProd {V T E : Type} (w v : T) (k : Nat) (e : GoError E) :
    Nat → Ctx V → T × Option (GoError E) :=
  fun n _ => if n < k then (w, some e) else (v, none)

/-- Invariant of a run against `retryProd`: either no success yet (cache
untouched, producer still stored, at most `k` invocations so far) or the
first success happened (value cached, producer nilled, invocation count
frozen at exactly `k + 1`). -/
def RetryInv {V T E : Type} (zero w v : T) (k : Nat) (e : GoError E)
    (s : GateState V T E) : Prop :=
  s.sem = false ∧
  ((s.done = false ∧ s.f = some (retryProd w v k e) ∧ s.value = zero ∧
      s.ncalls ≤ k) ∨
   (s.done = true ∧ s.f = none ∧ s.value = v ∧ s.ncalls = k + 1))

/-! ### Concrete fixtures used by the witness theorems -/

/-- A producer that always succeeds with 42 (the spec's concrete
scenario). -/
def wProd : Nat → Ctx Nat → Nat × Option (GoError Unit) :=
  fun _ _ => (42, none)

/-- A fresh gate instance wrapping `wProd`. -/
def wInit : GateState Nat Nat Unit := initState wProd 0

/-- A context that is not done and carries the marker value 7. -/
def wCtx : Ctx Nat := ⟨none, 7⟩

/-- A context whose `Err()` reports explicit cancellation. -/
def wCtxCancel : Ctx Nat := ⟨some CtxErr.canceled, 7⟩

/-- A context whose `Err()` reports deadline expiry. -/
def wCtxDeadline : Ctx Nat := ⟨some CtxErr.deadlineExceeded, 7⟩

/-- A gate instance after a first success: value 42 cached, done set,
producer nilled, one invocation recorded. -/
def wDone : GateState Nat Nat Unit := ⟨none, true, false, 42, 1⟩

/-- A producer that returns its context's embedded value, showing a
context-embedded marker is retrievable inside the producer. -/
def wCtxProd : Nat → Ctx Nat → Nat × Option (GoError Unit) :=
  fun _ c => (c.val, none)

/-- A producer that fails while returning a non-zero value 999 beside its
error. -/
def wFailProd : Nat → Ctx Nat → Nat × Option (GoError Unit) :=
  fun _ _ => (999, some (GoError.prod ()))

/-- The retry scenario instance: junk value 9 beside the error, success
value 100, one failure before success. -/
def wRetryInit : GateState Nat Nat Unit :=
  initState (retryProd 9 100 1 (GoError.prod ())) 0

/-! ### Helper lemmas: one equation per branch of the call -/

theorem sem_false_eta {V T E : Type} (s : GateState V T E)
    (h : s.sem = false) : { s with sem := false } = s := by
  cases s
  simp_all

theorem callI_fast {V T E : Type} (zero : T) (s0 s1 : GateState V T E)
    (ctx : Ctx V) (pick : Bool) (h : s0.done = true) :
    callI zero s0 s1 ctx pick = ⟨.ret s0.value none, s1, []⟩ := by
  simp [callI, h]

theorem callI_cancel {V T E : Type} (zero : T) (s0 s1 : GateState V T E)
    (ctx : Ctx V) (pick : Bool) (h0 : s0.done = false)
    (h : selectCancel ctx s1.sem pick = true) :
    callI zero s0 s1 ctx pick =
      ⟨.ret zero (Option.map CtxErr.toGoError ctx.err), s1, []⟩ := by
  simp [callI, h0, h]

theorem callI_blocked {V T E : Type} (zero : T) (s0 s1 : GateState V T E)
    (ctx : Ctx V) (pick : Bool) (h0 : s0.done = false)
    (h : selectCancel ctx s1.sem pick = false) (hs : s1.sem = true) :
    callI zero s0 s1 ctx pick = ⟨.blocked, s1, []⟩ := by
  rw [hs] at h
  simp [callI, h0, h, hs]

theorem callI_acquire {V T E : Type} (zero : T) (s0 s1 : GateState V T E)
    (ctx : Ctx V) (pick : Bool) (h0 : s0.done = false)
    (h : selectCancel ctx s1.sem pick = false) (hs : s1.sem = false) :
    callI zero s0 s1 ctx pick = acquireAndRun zero s1 ctx := by
  rw [hs] at h
  simp [callI, h0, h, hs]

theorem acquireAndRun_recheck {V T E : Type} (zero : T)
    (s : GateState V T E) (ctx : Ctx V) (h : s.done = true)
    (hs : s.sem = false) :
    acquireAndRun zero s ctx =
      ⟨.ret s.value none, s, [.acquire, .release]⟩ := by
  cases s
  simp_all [acquireAndRun]

theorem acquireAndRun_nil {V T E : Type} (zero : T)
    (s : GateState V T E) (ctx : Ctx V) (h : s.done = false)
    (hf : s.f = none) (hs : s.sem = false) :
    acquireAndRun zero s ctx =
      ⟨.nilPanic, s, [.acquire, .release]⟩ := by
  cases s
  simp_all [acquireAndRun]

theorem acquireAndRun_err {V T E : Type} (zero : T)
    (s : GateState V T E) (ctx : Ctx V)
    (g : Nat → Ctx V → T × Option (GoError E)) (e : GoError E)
    (h : s.done = false) (hf : s.f = some g) (hs : s.sem = false)
    (he : (g s.ncalls ctx).2 = some e) :
    acquireAndRun zero s ctx =
      ⟨.ret zero (some e), { s with ncalls := s.ncalls + 1 },
       [.acquire, .invoke ctx, .release]⟩ := by
  cases s
  simp_all [acquireAndRun]

theorem acquireAndRun_ok {V T E : Type} (zero : T)
    (s : GateState V T E) (ctx : Ctx V)
    (g : Nat → Ctx V → T × Option (GoError E))
    (h : s.done = false) (hf : s.f = some g) (hs : s.sem = false)
    (he : (g s.ncalls ctx).2 = none) :
    acquireAndRun zero s ctx =
      ⟨.ret (g s.ncalls ctx).1 none,
       { s with
          value := (g s.ncalls ctx).1
          done := true
          f := none
          ncalls := s.ncalls + 1 },
       [.acquire, .invoke ctx, .writeValue (g s.ncalls ctx).1, .setDone,
        .clearF, .release]⟩ := by
  cases s
  simp_all [acquireAndRun]

theorem acquireAndRun_sem {V T E : Type} (zero : T) (s : GateState V T E)
    (ctx : Ctx V) : (acquireAndRun zero s ctx).state.sem = false := by
  obtain ⟨gf, d, se, v, n⟩ := s
  cases d
  · cases gf with
    | none => rfl
    | some g => cases he : (g n ctx).2 <;> simp [acquireAndRun, he]
  · rfl

/-- From a done state, every run of further calls returns the cached value
with no error on every call and leaves the state untouched. -/
theorem runCalls_done {V T E : Type} (zero : T) (s : GateState V T E)
    (h : s.done = true) (l : List (Ctx V × Bool)) :
    runCalls zero s l = (s, l.map fun _ => .ret s.value none) := by
  induction l with
  | nil => rfl
  | cons c rest ih =>
      simp only [runCalls, call, callI_fast zero s s c.1 c.2 h, ih,
        List.map]

/-- Exhaustive description of one sequential call from a state with the
semaphore free: fast path, cancellation, nil producer, producer error, or
producer success. -/
theorem call_cases {V T E : Type} (zero : T) (s : GateState V T E)
    (ctx : Ctx V) (pick : Bool) (hs : s.sem = false) :
    (s.done = true ∧ call zero s ctx pick = ⟨.ret s.value none, s, []⟩) ∨
    (s.done = false ∧ selectCancel ctx s.sem pick = true ∧
      ctx.err.isSome = true ∧
      call zero s ctx pick =
        ⟨.ret zero (Option.map CtxErr.toGoError ctx.err), s, []⟩) ∨
    (s.done = false ∧ s.f = none ∧
      call zero s ctx pick = ⟨.nilPanic, s, [.acquire, .release]⟩) ∨
    (∃ g e, s.done = false ∧ s.f = some g ∧
      (g s.ncalls ctx).2 = some e ∧
      call zero s ctx pick =
        ⟨.ret zero (some e), { s with ncalls := s.ncalls + 1 },
         [.acquire, .invoke ctx, .release]⟩) ∨
    (∃ g, s.done = false ∧ s.f = some g ∧ (g s.ncalls ctx).2 = none ∧
      call zero s ctx pick =
        ⟨.ret (g s.ncalls ctx).1 none,
         { s with
            value := (g s.ncalls ctx).1
            done := true
            f := none
            ncalls := s.ncalls + 1 },
         [.acquire, .invoke ctx, .writeValue (g s.ncalls ctx).1, .setDone,
          .clearF, .release]⟩) := by
  by_cases hd : s.done = true
  · exact Or.inl ⟨hd, callI_fast zero s s ctx pick hd⟩
  have hd0 : s.done = false := by simpa using hd
  by_cases hc : selectCancel ctx s.sem pick = true
  · have hsome : ctx.err.isSome = true := by
      unfold selectCancel at hc
      exact ((Bool.and_eq_true _ _).mp hc).1
    exact Or.inr (Or.inl ⟨hd0, hc, hsome,
      callI_cancel zero s s ctx pick hd0 hc⟩)
  have hc0 : selectCancel ctx s.sem pick = false := by simpa using hc
  have hacq : call zero s ctx pick = acquireAndRun zero s ctx :=
    callI_acquire zero s s ctx pick hd0 hc0 hs
  rcases Option.eq_none_or_eq_some s.f with hf | ⟨g, hf⟩
  · refine Or.inr (Or.inr (Or.inl ⟨hd0, hf, ?_⟩))
    rw [hacq]
    exact acquireAndRun_nil zero s ctx hd0 hf hs
  rcases Option.eq_none_or_eq_some ((g s.ncalls ctx).2) with he | ⟨e, he⟩
  · refine Or.inr (Or.inr (Or.inr (Or.inr ⟨g, hd0, hf, he, ?_⟩)))
    rw [hacq]
    exact acquireAndRun_ok zero s ctx g hd0 hf hs he
  · refine Or.inr (Or.inr (Or.inr (Or.inl ⟨g, e, hd0, hf, he, ?_⟩)))
    rw [hacq]
    exact acquireAndRun_err zero s ctx g e hd0 hf hs he

/-- Whenever the body after acquisition runs, its last recorded action is
the (deferred) semaphore release. -/
theorem acquireAndRun_last {V T E : Type} (zero : T) (s : GateState V T E)
    (ctx : Ctx V) :
    (acquireAndRun zero s ctx).events.getLast? = some Event.release := by
  obtain ⟨gf, d, se, v, n⟩ := s
  cases d
  · cases gf with
    | none => rfl
    | some g => cases he : (g n ctx).2 <;> simp [acquireAndRun, he]
  · rfl

/-- A sequential call from a state with a free semaphore never blocks. -/
theorem call_not_blocked {V T E : Type} (zero : T) (s : GateState V T E)
    (ctx : Ctx V) (pick : Bool) (hs : s.sem = false) :
    (call zero s ctx pick).res ≠ CallResult.blocked := by
  rcases call_cases zero s ctx pick hs with
    ⟨_, heq⟩ | ⟨_, _, _, heq⟩ | ⟨_, _, heq⟩ | ⟨g, e, _, _, _, heq⟩ |
    ⟨g, _, _, _, heq⟩ <;> simp [heq]

/-- The sequential state invariant rules out the nil-producer panic and is
preserved by every call. -/
theorem call_no_panic {V T E : Type} (zero : T) (s : GateState V T E)
    (ctx : Ctx V) (pick : Bool) (h : Inv s) :
    (call zero s ctx pick).res ≠ CallResult.nilPanic ∧
      Inv (call zero s ctx pick).state := by
  obtain ⟨hs, hfs⟩ := h
  rcases call_cases zero s ctx pick hs with
    ⟨hd, heq⟩ | ⟨hd, _, _, heq⟩ | ⟨hd, hf, heq⟩ | ⟨g, e, hd, hf, he, heq⟩ |
    ⟨g, hd, hf, he, heq⟩
  · rw [heq]
    exact ⟨by simp, hs, hfs⟩
  · rw [heq]
    exact ⟨by simp, hs, hfs⟩
  · have := hfs hd
    rw [hf] at this
    cases this
  · rw [heq]
    refine ⟨by simp, hs, fun _ => ?_⟩
    rw [hf]
    rfl
  · rw [heq]
    exact ⟨by simp, hs, fun hcon => by cases hcon⟩

/-- No run of sequential calls from a state satisfying the invariant ever
hits the nil-producer panic. -/
theorem runCalls_no_panic {V T E : Type} (zero : T) :
    ∀ (l : List (Ctx V × Bool)) (s : GateState V T E), Inv s →
      CallResult.nilPanic ∉ (runCalls zero s l).2 := by
  intro l
  induction l with
  | nil => intro s _ hmem; cases hmem
  | cons c rest ih =>
      intro s h
      have h1 := call_no_panic zero s c.1 c.2 h
      intro hmem
      simp only [runCalls, List.mem_cons] at hmem
      rcases hmem with h2 | h2
      · exact h1.1 h2.symm
      · exact ih _ h1.2 h2

/-- One call preserves the retry-scenario invariant. -/
theorem retry_step {V T E : Type} (zero w v : T) (k : Nat) (e : GoError E)
    (s : GateState V T E) (ctx : Ctx V) (pick : Bool)
    (h : RetryInv zero w v k e s) :
    RetryInv zero w v k e (call zero s ctx pick).state := by
  obtain ⟨hs, hcase⟩ := h
  rcases call_cases zero s ctx pick hs with
    ⟨hd, heq⟩ | ⟨hd, _, _, heq⟩ | ⟨hd, hf, heq⟩ | ⟨g, e0, hd, hf, he, heq⟩ |
    ⟨g, hd, hf, he, heq⟩
  · rw [heq]
    exact ⟨hs, hcase⟩
  · rw [heq]
    exact ⟨hs, hcase⟩
  · rcases hcase with ⟨_, hf2, _, _⟩ | ⟨hd2, _, _, _⟩
    · rw [hf2] at hf
      cases hf
    · rw [hd2] at hd
      cases hd
  · rcases hcase with ⟨_, hf2, hv, hn⟩ | ⟨hd2, _, _, _⟩
    · rw [hf2] at hf
      have hg : g = retryProd w v k e := (Option.some_inj.mp hf).symm
      have hlt : s.ncalls < k := by
        by_contra hge
        rw [hg] at he
        simp [retryProd, hge] at he
      rw [heq]
      exact ⟨hs, Or.inl ⟨hd, hf2, hv, hlt⟩⟩
    · rw [hd2] at hd
      cases hd
  · rcases hcase with ⟨_, hf2, hv, hn⟩ | ⟨hd2, _, _, _⟩
    · rw [hf2] at hf
      have hg : g = retryProd w v k e := (Option.some_inj.mp hf).symm
      have hge : ¬ s.ncalls < k := by
        intro hlt
        rw [hg] at he
        simp [retryProd, hlt] at he
      have hk : s.ncalls = k := Nat.le_antisymm hn (Nat.le_of_not_lt hge)
      have hval : (g s.ncalls ctx).1 = v := by
        rw [hg]
        simp [retryProd, hge]
      rw [heq]
      exact ⟨hs, Or.inr ⟨rfl, rfl, hval, by rw [hk]⟩⟩
    · rw [hd2] at hd
      cases hd

/-- Any run of calls preserves the retry-scenario invariant. -/
theorem retry_run {V T E : Type} (zero w v : T) (k : Nat) (e : GoError E) :
    ∀ (l : List (Ctx V × Bool)) (s : GateState V T E),
      RetryInv zero w v k e s →
      RetryInv zero w v k e (runCalls zero s l).1 := by
  intro l
  induction l with
  | nil => intro s h; exact h
  | cons c rest ih =>
      intro s h
      exact ih _ (retry_step zero w v k e s c.1 c.2 h)

/-! ### The claims -/

/-- C3: for every call in which the done flag is false and the supplied
context is cancelled or past its deadline when the select resolves against
it (before the gate is acquired), the accessor returns the zero value of
`T` together with exactly the cancellation error the context reports
(`canceled` vs `deadlineExceeded`, unmodified), without invoking the
producer and without modifying the gate state: the resulting state is the
unchanged `s1` and the event trace is empty. -/
theorem cancellation_path {V T E : Type} (zero : T)
    (s0 s1 : GateState V T E) (ctx : Ctx V) (pick : Bool) (ce : CtxErr)
    (h0 : s0.done = false) (hc : ctx.err = some ce)
    (hsel : selectCancel ctx s1.sem pick = true) :
    callI zero s0 s1 ctx pick =
      ⟨.ret zero (some ce.toGoError), s1, []⟩ := by
  rw [callI_cancel zero s0 s1 ctx pick h0 hsel, hc]
  rfl

/-- Witness for C3: a waiter with a cancelled context, racing a free gate
and losing to the cancellation branch, gets zero and `context.Canceled`;
with a deadline context it gets `context.DeadlineExceeded`. -/
theorem cancellation_path_witness :
    callI 0 wInit wInit wCtxCancel true =
      ⟨.ret 0 (some GoError.canceled), wInit, []⟩ ∧
    callI 0 wInit wInit wCtxDeadline true =
      ⟨.ret 0 (some GoError.deadlineExceeded), wInit, []⟩ :=
  ⟨cancellation_path 0 wInit wInit wCtxCancel true CtxErr.canceled
      rfl rfl rfl,
   cancellation_path 0 wInit wInit wCtxDeadline true
      CtxErr.deadlineExceeded rfl rfl rfl⟩

/-- C5: a call that observed done false, then acquired the gate while an
interfering caller had meanwhile completed the producer (so done is now
true), re-reads the flag under the gate, releases the gate and returns the
cached value with no error — the event trace is exactly acquire then
release, with no producer invocation. -/
theorem recheck_after_acquire {V T E : Type} (zero : T)
    (s0 s1 : GateState V T E) (ctx : Ctx V) (pick : Bool)
    (h0 : s0.done = false) (hsel : selectCancel ctx s1.sem pick = false)
    (hsem : s1.sem = false) (h1 : s1.done = true) :
    callI zero s0 s1 ctx pick =
      ⟨.ret s1.value none, s1, [.acquire, .release]⟩ := by
  rw [callI_acquire zero s0 s1 ctx pick h0 hsel hsem]
  exact acquireAndRun_recheck zero s1 ctx h1 hsem

/-- Witness for C5: a caller that saw the fresh state, with another caller
having finished successfully before it got the gate, returns the cached 42
without running the producer again. -/
theorem recheck_after_acquire_witness :
    callI 0 wInit wDone wCtx false =
      ⟨.ret 42 none, wDone, [.acquire, .release]⟩ :=
  recheck_after_acquire 0 wInit wDone wCtx false rfl rfl rfl rfl

/-- C6: when the producer invocation succeeds, the call performs, in this
order: write the value cell, set the done flag, clear the stored producer
reference, release the gate — the event trace is literally
`[acquire, invoke, writeValue, setDone, clearF, release]`, so the done
flag is set only after the value cell is written — and returns the cached
value with a nil error. -/
theorem success_publish_order {V T E : Type} (zero : T)
    (s0 s1 : GateState V T E) (ctx : Ctx V) (pick : Bool)
    (g : Nat → Ctx V → T × Option (GoError E))
    (h0 : s0.done = false) (hsel : selectCancel ctx s1.sem pick = false)
    (hsem : s1.sem = false) (h1 : s1.done = false) (hf : s1.f = some g)
    (hok : (g s1.ncalls ctx).2 = none) :
    callI zero s0 s1 ctx pick =
      ⟨.ret (g s1.ncalls ctx).1 none,
       { s1 with
          value := (g s1.ncalls ctx).1
          done := true
          f := none
          ncalls := s1.ncalls + 1 },
       [.acquire, .invoke ctx, .writeValue (g s1.ncalls ctx).1, .setDone,
        .clearF, .release]⟩ := by
  rw [callI_acquire zero s0 s1 ctx pick h0 hsel hsem]
  exact acquireAndRun_ok zero s1 ctx g h1 hf hsem hok

/-- Witness for C6: the fresh instance successfully produces 42 and
publishes it in the required order. -/
theorem success_publish_order_witness :
    callI 0 wInit wInit wCtx false =
      ⟨.ret 42 none, ⟨none, true, false, 42, 1⟩,
       [.acquire, .invoke wCtx, .writeValue 42, .setDone, .clearF,
        .release]⟩ :=
  success_publish_order 0 wInit wInit wCtx false wProd
    rfl rfl rfl rfl rfl rfl

/-- C7: once the done flag is true the gate is never acquired again —
every caller that observes done true takes the fast path, returning the
cached value and nil error with an empty event trace (the gate and the
context are never touched); moreover no call ever resets the flag, so
done stays true from that point on. -/
theorem done_is_terminal {V T E : Type} (zero : T)
    (s0 s1 : GateState V T E) (ctx : Ctx V) (pick : Bool) :
    (s0.done = true →
      callI zero s0 s1 ctx pick = ⟨.ret s0.value none, s1, []⟩) ∧
    (s1.done = true → (callI zero s0 s1 ctx pick).state.done = true) := by
  constructor
  · exact fun h => callI_fast zero s0 s1 ctx pick h
  · intro h1
    by_cases hd : s0.done = true
    · rw [callI_fast zero s0 s1 ctx pick hd]
      exact h1
    have hd0 : s0.done = false := by simpa using hd
    by_cases hc : selectCancel ctx s1.sem pick = true
    · rw [callI_cancel zero s0 s1 ctx pick hd0 hc]
      exact h1
    have hc0 : selectCancel ctx s1.sem pick = false := by simpa using hc
    by_cases hsem : s1.sem = true
    · rw [callI_blocked zero s0 s1 ctx pick hd0 hc0 hsem]
      exact h1
    have hsem0 : s1.sem = false := by simpa using hsem
    rw [callI_acquire zero s0 s1 ctx pick hd0 hc0 hsem0,
      acquireAndRun_recheck zero s1 ctx h1 hsem0]
    exact h1

/-- Witness for C7: a caller arriving at the completed instance takes the
fast path (no events, cached 42, nil error) and the flag stays true. -/
theorem done_is_terminal_witness :
    callI 0 wDone wDone wCtxCancel true = ⟨.ret 42 none, wDone, []⟩ ∧
    (callI 0 wDone wDone wCtxCancel true).state.done = true :=
  ⟨(done_is_terminal 0 wDone wDone wCtxCancel true).1 rfl,
   (done_is_terminal 0 wDone wDone wCtxCancel true).2 rfl⟩

/-- C4: on every exit path of a call that acquired the gate the gate is
released before the call completes: the semaphore is free again after any
call (given it was free when the select resolved), whenever the trace
records an acquisition its final recorded action is the release, and a
subsequent sequential call never blocks — a failed attempt cannot
deadlock future callers. -/
theorem gate_always_released {V T E : Type} (zero : T)
    (s0 s1 : GateState V T E) (ctx : Ctx V) (pick : Bool)
    (hsem : s1.sem = false) :
    (callI zero s0 s1 ctx pick).state.sem = false ∧
    (Event.acquire ∈ (callI zero s0 s1 ctx pick).events →
      (callI zero s0 s1 ctx pick).events.getLast? = some Event.release) ∧
    (∀ (ctx2 : Ctx V) (pick2 : Bool),
      (call zero (callI zero s0 s1 ctx pick).state ctx2 pick2).res ≠
        CallResult.blocked) := by
  by_cases hd : s0.done = true
  · rw [callI_fast zero s0 s1 ctx pick hd]
    exact ⟨hsem, by simp, fun c2 p2 => call_not_blocked zero s1 c2 p2 hsem⟩
  have hd0 : s0.done = false := by simpa using hd
  by_cases hc : selectCancel ctx s1.sem pick = true
  · rw [callI_cancel zero s0 s1 ctx pick hd0 hc]
    exact ⟨hsem, by simp, fun c2 p2 => call_not_blocked zero s1 c2 p2 hsem⟩
  have hc0 : selectCancel ctx s1.sem pick = false := by simpa using hc
  rw [callI_acquire zero s0 s1 ctx pick hd0 hc0 hsem]
  refine ⟨acquireAndRun_sem zero s1 ctx, fun _ => acquireAndRun_last zero s1 ctx,
    fun c2 p2 => call_not_blocked zero _ c2 p2 (acquireAndRun_sem zero s1 ctx)⟩

/-- Witness for C4: after a failed attempt the gate is free, the trace
ends with the release, and an immediate next call does not hang. -/
theorem gate_always_released_witness :
    (callI 0 (initState wFailProd 0) (initState wFailProd 0) wCtx
        false).state.sem = false ∧
    ((callI 0 (initState wFailProd 0) (initState wFailProd 0) wCtx
        false).events.getLast? = some Event.release) ∧
    (call 0 (callI 0 (initState wFailProd 0) (initState wFailProd 0) wCtx
        false).state wCtx false).res ≠ CallResult.blocked :=
  ⟨(gate_always_released 0 (initState wFailProd 0) (initState wFailProd 0)
      wCtx false rfl).1,
   (gate_always_released 0 (initState wFailProd 0) (initState wFailProd 0)
      wCtx false rfl).2.1 (by simp [callI, selectCancel, initState,
        acquireAndRun, wFailProd, wCtx]),
   (gate_always_released 0 (initState wFailProd 0) (initState wFailProd 0)
      wCtx false rfl).2.2 wCtx false⟩

/-- C1: once a call has returned a successful result `v`, the done flag is
set and the value cell holds `v`; every subsequent call — with any
context, even an already-cancelled one, and any select oracle — returns
the identical cached value with a nil error via the fast path, with an
empty event trace (the gate is not acquired, the producer is not invoked,
the context is not consulted) and an unchanged state; hence any run of
further calls returns `v` with nil error on every call. -/
theorem memoized_after_success {V T E : Type} (zero : T)
    (s : GateState V T E) (ctx : Ctx V) (pick : Bool) (v : T)
    (hs : s.sem = false)
    (h : (call zero s ctx pick).res = .ret v none) :
    (call zero s ctx pick).state.done = true ∧
    (call zero s ctx pick).state.value = v ∧
    (∀ (ctx2 : Ctx V) (pick2 : Bool),
      call zero (call zero s ctx pick).state ctx2 pick2 =
        ⟨.ret v none, (call zero s ctx pick).state, []⟩) ∧
    (∀ l : List (Ctx V × Bool),
      runCalls zero (call zero s ctx pick).state l =
        ((call zero s ctx pick).state, l.map fun _ => .ret v none)) := by
  rcases call_cases zero s ctx pick hs with
    ⟨hd, heq⟩ | ⟨hd, hc, hsome, heq⟩ | ⟨hd, hf, heq⟩ |
    ⟨g, e, hd, hf, he, heq⟩ | ⟨g, hd, hf, he, heq⟩
  · rw [heq] at h ⊢
    have hv : s.value = v := by
      simpa using h
    refine ⟨hd, hv, fun ctx2 pick2 => ?_, fun l => ?_⟩
    · rw [← hv]
      exact callI_fast zero s s ctx2 pick2 hd
    · rw [← hv]
      exact runCalls_done zero s hd l
  · rw [heq] at h
    simp at h
    rw [h.2] at hsome
    cases hsome
  · rw [heq] at h
    cases h
  · rw [heq] at h
    simp at h
  · rw [heq] at h ⊢
    have hv : (g s.ncalls ctx).1 = v := by
      simpa using h
    refine ⟨rfl, hv, fun ctx2 pick2 => ?_, fun l => ?_⟩
    · rw [← hv]
      exact callI_fast zero _ _ ctx2 pick2 rfl
    · rw [← hv]
      exact runCalls_done zero _ rfl l

/-- Witness for C1: after the first call returns `(42, nil)`, a second
call made with an already-cancelled context still returns the identical
cached 42 with nil error, no events, unchanged state. -/
theorem memoized_after_success_witness :
    (call 0 wInit wCtx false).state.done = true ∧
    (call 0 wInit wCtx false).state.value = 42 ∧
    call 0 (call 0 wInit wCtx false).state wCtxCancel true =
      ⟨.ret 42 none, (call 0 wInit wCtx false).state, []⟩ :=
  ⟨(memoized_after_success 0 wInit wCtx false 42 rfl rfl).1,
   (memoized_after_success 0 wInit wCtx false 42 rfl rfl).2.1,
   (memoized_after_success 0 wInit wCtx false 42 rfl rfl).2.2.1
      wCtxCancel true⟩

/-- C8: whenever an accessor call returns a non-nil error — from the
cancellation path or from a producer failure — the value returned beside
it is exactly the zero value of `T`, never a stale, partial, or
producer-supplied one. -/
theorem zero_value_on_error {V T E : Type} (zero : T)
    (s0 s1 : GateState V T E) (ctx : Ctx V) (pick : Bool) (v : T)
    (e : GoError E)
    (h : (callI zero s0 s1 ctx pick).res = .ret v (some e)) : v = zero := by
  by_cases hd : s0.done = true
  · rw [callI_fast zero s0 s1 ctx pick hd] at h
    simp at h
  have hd0 : s0.done = false := by simpa using hd
  by_cases hc : selectCancel ctx s1.sem pick = true
  · rw [callI_cancel zero s0 s1 ctx pick hd0 hc] at h
    simp at h
    exact h.1.symm
  have hc0 : selectCancel ctx s1.sem pick = false := by simpa using hc
  by_cases hsem : s1.sem = true
  · rw [callI_blocked zero s0 s1 ctx pick hd0 hc0 hsem] at h
    cases h
  have hsem0 : s1.sem = false := by simpa using hsem
  rw [callI_acquire zero s0 s1 ctx pick hd0 hc0 hsem0] at h
  by_cases hd1 : s1.done = true
  · rw [acquireAndRun_recheck zero s1 ctx hd1 hsem0] at h
    simp at h
  have hd10 : s1.done = false := by simpa using hd1
  rcases Option.eq_none_or_eq_some s1.f with hf | ⟨g, hf⟩
  · rw [acquireAndRun_nil zero s1 ctx hd10 hf hsem0] at h
    cases h
  rcases Option.eq_none_or_eq_some ((g s1.ncalls ctx).2) with he | ⟨e0, he⟩
  · rw [acquireAndRun_ok zero s1 ctx g hd10 hf hsem0 he] at h
    simp at h
  · rw [acquireAndRun_err zero s1 ctx g e0 hd10 hf hsem0 he] at h
    simp at h
    exact h.1.symm

/-- Witness for C8: a producer that fails while returning 999 beside its
error still makes the accessor return the zero value 0. -/
theorem zero_value_on_error_witness :
    (0 : Nat) = 0 ∧
    (callI 0 (initState wFailProd 0) (initState wFailProd 0) wCtx
        false).res = .ret 0 (some (GoError.prod ())) :=
  ⟨zero_value_on_error 0 (initState wFailProd 0) (initState wFailProd 0)
      wCtx false 0 (GoError.prod ()) rfl,
   rfl⟩

/-- C9: on every call in which the producer is invoked, the context
delivered to the producer (recorded by the `invoke` event at the exact
program point of `d.f(ctx)`) is the very context value that was passed to
the accessor on that same call. -/
theorem context_propagated {V T E : Type} (zero : T)
    (s0 s1 : GateState V T E) (ctx : Ctx V) (pick : Bool) (c : Ctx V)
    (h : Event.invoke c ∈ (callI zero s0 s1 ctx pick).events) : c = ctx := by
  by_cases hd : s0.done = true
  · rw [callI_fast zero s0 s1 ctx pick hd] at h
    cases h
  have hd0 : s0.done = false := by simpa using hd
  by_cases hc : selectCancel ctx s1.sem pick = true
  · rw [callI_cancel zero s0 s1 ctx pick hd0 hc] at h
    cases h
  have hc0 : selectCancel ctx s1.sem pick = false := by simpa using hc
  by_cases hsem : s1.sem = true
  · rw [callI_blocked zero s0 s1 ctx pick hd0 hc0 hsem] at h
    cases h
  have hsem0 : s1.sem = false := by simpa using hsem
  rw [callI_acquire zero s0 s1 ctx pick hd0 hc0 hsem0] at h
  by_cases hd1 : s1.done = true
  · rw [acquireAndRun_recheck zero s1 ctx hd1 hsem0] at h
    simp at h
  have hd10 : s1.done = false := by simpa using hd1
  rcases Option.eq_none_or_eq_some s1.f with hf | ⟨g, hf⟩
  · rw [acquireAndRun_nil zero s1 ctx hd10 hf hsem0] at h
    simp at h
  rcases Option.eq_none_or_eq_some ((g s1.ncalls ctx).2) with he | ⟨e0, he⟩
  · rw [acquireAndRun_ok zero s1 ctx g hd10 hf hsem0 he] at h
    simp at h
    exact h
  · rw [acquireAndRun_err zero s1 ctx g e0 hd10 hf hsem0 he] at h
    simp at h
    exact h

/-- Witness for C9: a producer that reads the context-embedded marker
value receives exactly the caller's context (marker 7 is retrievable
inside the producer and becomes the cached value). -/
theorem context_propagated_witness :
    wCtx = wCtx ∧
    (call 0 (initState wCtxProd 0) wCtx false).res = .ret 7 none :=
  ⟨context_propagated 0 (initState wCtxProd 0) (initState wCtxProd 0)
      wCtx false wCtx (by simp [call, callI, selectCancel, initState,
        acquireAndRun, wCtxProd, wCtx]),
   rfl⟩

/-- C10: the nil-producer call is unreachable: the stored producer is
nilled only in the critical section that also sets the done flag, so the
sequential invariant — producer present while done is false — holds of
the initial state, is preserved by every call, rules out the nil-panic
result on every call, and hence no run of calls from a fresh instance
ever invokes a nil producer. -/
theorem nil_producer_unreachable {V T E : Type} (zero : T)
    (f0 : Nat → Ctx V → T × Option (GoError E)) :
    Inv (initState f0 zero) ∧
    (∀ (s : GateState V T E) (ctx : Ctx V) (pick : Bool), Inv s →
      (call zero s ctx pick).res ≠ CallResult.nilPanic ∧
        Inv (call zero s ctx pick).state) ∧
    (∀ l : List (Ctx V × Bool),
      CallResult.nilPanic ∉ (runCalls zero (initState f0 zero) l).2) := by
  refine ⟨⟨rfl, fun _ => rfl⟩,
    fun s ctx pick h => call_no_panic zero s ctx pick h,
    fun l => runCalls_no_panic zero l (initState f0 zero)
      ⟨rfl, fun _ => rfl⟩⟩

/-- Witness for C10: no call in a concrete three-call run (one of them
with a cancelled context) panics on a nil producer. -/
theorem nil_producer_unreachable_witness :
    (call 0 wInit wCtx false).res ≠ CallResult.nilPanic ∧
    CallResult.nilPanic ∉
      (runCalls 0 (initState wProd 0)
        [(wCtx, false), (wCtxCancel, true), (wCtx, false)]).2 :=
  ⟨((nil_producer_unreachable 0 wProd).2.1 wInit wCtx false
      ⟨rfl, fun _ => rfl⟩).1,
   (nil_producer_unreachable 0 wProd).2.2
      [(wCtx, false), (wCtxCancel, true), (wCtx, false)]⟩

/-- C2: when the producer invocation returns an error, the call does not
set the done flag and caches nothing — the resulting state is exactly the
prior state (up to the ghost invocation count) — the gate is released
(the trace is acquire, invoke, release) and the zero value is returned
with the producer's error verbatim.  Moreover, against a producer that
errors on its first `k` invocations and succeeds on its `(k+1)`-th, any
run of calls performs at most `k + 1` invocations; while no success has
occurred the cache is untouched and at most `k` invocations have
happened, and once the first success has occurred exactly `k + 1`
invocations have happened and every further call returns the cached value
with no error. -/
theorem producer_error_and_retry {V T E : Type} (zero : T) :
    (∀ (s : GateState V T E) (ctx : Ctx V) (pick : Bool)
        (g : Nat → Ctx V → T × Option (GoError E)) (e : GoError E),
      s.done = false → s.sem = false →
      selectCancel ctx s.sem pick = false →
      s.f = some g → (g s.ncalls ctx).2 = some e →
      call zero s ctx pick =
        ⟨.ret zero (some e), { s with ncalls := s.ncalls + 1 },
         [.acquire, .invoke ctx, .release]⟩) ∧
    (∀ (w v : T) (k : Nat) (e : GoError E) (l : List (Ctx V × Bool)),
      (runCalls zero (initState (retryProd w v k e) zero) l).1.ncalls ≤
          k + 1 ∧
      ((runCalls zero (initState (retryProd w v k e) zero) l).1.done =
          false →
        (runCalls zero (initState (retryProd w v k e) zero) l).1.ncalls ≤
            k ∧
        (runCalls zero (initState (retryProd w v k e) zero) l).1.value =
          zero) ∧
      ((runCalls zero (initState (retryProd w v k e) zero) l).1.done =
          true →
        (runCalls zero (initState (retryProd w v k e) zero) l).1.ncalls =
            k + 1 ∧
        ∀ l2 : List (Ctx V × Bool),
          runCalls zero
              (runCalls zero (initState (retryProd w v k e) zero) l).1
              l2 =
            ((runCalls zero (initState (retryProd w v k e) zero) l).1,
             l2.map fun _ => .ret v none))) := by
  constructor
  · intro s ctx pick g e hd hs hsel hf he
    exact (callI_acquire zero s s ctx pick hd hsel hs).trans
      (acquireAndRun_err zero s ctx g e hd hf hs he)
  · intro w v k e l
    have hinv := retry_run zero w v k e l (initState (retryProd w v k e)
      zero) ⟨rfl, Or.inl ⟨rfl, rfl, rfl, Nat.zero_le k⟩⟩
    obtain ⟨hs, hcase⟩ := hinv
    rcases hcase with ⟨hdf, hff, hvz, hnk⟩ | ⟨hdt, hff, hvv, hnn⟩
    · refine ⟨Nat.le_succ_of_le hnk, fun _ => ⟨hnk, hvz⟩, fun hcon => ?_⟩
      rw [hdf] at hcon
      cases hcon
    · refine ⟨Nat.le_of_eq hnn, fun hcon => ?_, fun _ => ⟨hnn, fun l2 => ?_⟩⟩
      · rw [hdt] at hcon
        cases hcon
      · have hrun := runCalls_done zero
          (runCalls zero (initState (retryProd w v k e) zero) l).1 hdt l2
        rw [hvv] at hrun
        exact hrun

/-- Witness for C2: the spec's concrete scenario — the producer fails once
(returning junk 9 beside the error) and then returns 100.  The first call
returns the zero value with the error verbatim and leaves the cache
untouched; after a three-call run the invocation count is frozen at 2 and
the third call got `(100, nil)` from the cache. -/
theorem producer_error_and_retry_witness :
    call 0 wRetryInit wCtx false =
      ⟨.ret 0 (some (GoError.prod ())),
       ⟨some (retryProd 9 100 1 (GoError.prod ())), false, false, 0, 1⟩,
       [.acquire, .invoke wCtx, .release]⟩ ∧
    (runCalls 0 wRetryInit
        [(wCtx, false), (wCtx, false), (wCtx, false)]).1.ncalls = 2 :=
  ⟨(@producer_error_and_retry Nat Nat Unit 0).1 wRetryInit wCtx false
      (retryProd 9 100 1 (GoError.prod ())) (GoError.prod ())
      rfl rfl rfl rfl rfl,
   (((@producer_error_and_retry Nat Nat Unit 0).2 9 100 1
        (GoError.prod ())
        [(wCtx, false), (wCtx, false), (wCtx, false)]).2.2 rfl).1⟩

end Lazy
